import Mathlib

/-!
Verification of the restaurant POS order engine.

This file shallowly embeds the backend order routes, the order numbering
utility, the websocket route registration and the authentication middleware,
and proves or refutes the specified properties about them.

Conventions of the embedding:
* The relational store is a `List Order` (plus a read-only `List MenuItem`
  catalog); Prisma `findMany where id in ids` is a filter over the table,
  `find?` models `Array.prototype.find`, and `update` maps over the table
  replacing the row with the matching primary key.
* JavaScript truthiness on strings (`item.notes || null`, `if (status)`) is
  modelled explicitly: the empty string is falsy.
* Handlers return their HTTP status code together with the post-state of the
  store, so that the frame of each operation is visible in the theorems.
-/

namespace RestaurantPOS

/-- Catalog row (table `MenuItem`): `id`, `name`, `price`, `station`, `active`. -/
structure MenuItem where
  id : Nat
  name : String
  price : Int
  station : String
  active : Bool
deriving DecidableEq

/-- One line of a create/update request body: `{menuItemId, quantity, notes?}`. -/
structure ReqItem where
  menuItemId : Nat
  quantity : Int
  notes : Option String
deriving DecidableEq

/-- Persisted order line (table `OrderItem`); `price` is the snapshot taken
from the catalog at creation time. -/
structure OrderItem where
  menuItemId : Nat
  quantity : Int
  price : Int
  notes : Option String
deriving DecidableEq

/-- Persisted order (table `Order`); `createdAt` is an abstract timestamp. -/
structure Order where
  id : Nat
  orderNumber : Nat
  serverId : Nat
  status : String
  tableNumber : Option String
  totalPrice : Int
  createdAt : Nat
  items : List OrderItem
deriving DecidableEq

/-- Models `x || null` on an optional string: the empty string is falsy in JS
and collapses to `null`. -/
def orNull : Option String → Option String
  | some s => if s = "" then none else some s
  | none => none

/-! ## Order numbering service (`getNextOrderNumber`) -/

/-- Persisted numbering state (`data/order-counter.json`): `{date, counter}`. -/
structure OrderCounter where
  date : String
  counter : Nat
deriving DecidableEq

/-- `getNextOrderNumber` from the numbering utility: computes today, resets the
counter to 1 on a date change, otherwise increments; persists the new state and
returns the counter. `today` is the computed local calendar date. -/
def getNextOrderNumber (today : String) (stored : OrderCounter) : Nat × OrderCounter :=
  if stored.date ≠ today then (1, { date := today, counter := 1 })
  else (stored.counter + 1, { date := stored.date, counter := stored.counter + 1 })

/-! ## Order creation (`POST /orders`) -/

/-- First catalog row with the given id, as resolved by
`menuItems.find((mi) => mi.id === item.menuItemId)`; `price` of that row,
0 if the id is absent. -/
def priceOf (catalog : List MenuItem) (mid : Nat) : Int :=
  match catalog.find? (fun mi => mi.id == mid) with
  | some mi => mi.price
  | none => 0

/-- The `items.map(...)` body of the create/update handlers: for each submitted
line, look the menu item up in the fetched rows and build the order-item row
(price snapshot, falsy notes collapsed to null). `none` models the
`throw new Error('Menu item not found')` path. -/
def buildItemsData (menuItems : List MenuItem) : List ReqItem → Option (List OrderItem)
  | [] => some []
  | it :: rest =>
    match menuItems.find? (fun mi => mi.id == it.menuItemId) with
    | none => none
    | some mi =>
      match buildItemsData menuItems rest with
      | none => none
      | some l =>
        some ({ menuItemId := it.menuItemId, quantity := it.quantity,
                price := mi.price, notes := orNull it.notes } :: l)

/-- The accumulated `totalPrice`: sum over the built rows of
`menuItem.price * item.quantity`. -/
def itemsTotal (data : List OrderItem) : Int :=
  (data.map (fun d => d.price * d.quantity)).sum

/-- `POST /orders` handler body, after authentication and role check:
validates the items array, fetches the referenced menu items, compares the
row count with the submitted line count, prices the order and persists it
with status `OPEN`. -/
def createOrder (catalog : List MenuItem) (serverId orderNumber oid createdAt : Nat)
    (items : List ReqItem) (tn : Option String) : Except (Nat × String) Order :=
  if items.isEmpty then
    Except.error (400, "Items array is required and must not be empty")
  else
    let menuItemIds := items.map (fun it => it.menuItemId)
    let menuItems := catalog.filter (fun mi => menuItemIds.contains mi.id)
    if menuItems.length ≠ menuItemIds.length then
      Except.error (400, "One or more menu items not found")
    else
      match buildItemsData menuItems items with
      | none => Except.error (500, "Failed to create order")
      | some data =>
        Except.ok { id := oid, orderNumber := orderNumber, serverId := serverId,
                    status := "OPEN", tableNumber := orNull tn,
                    totalPrice := itemsTotal data, createdAt := createdAt,
                    items := data }

/-- `POST /orders` as a store transformer: on success the new order is appended
to the table, on failure the table is untouched. -/
def createOrderDb (catalog : List MenuItem) (db : List Order)
    (serverId orderNumber oid createdAt : Nat)
    (items : List ReqItem) (tn : Option String) : Nat × List Order :=
  match createOrder catalog serverId orderNumber oid createdAt items tn with
  | Except.ok o => (201, db ++ [o])
  | Except.error e => (e.1, db)

/-! ### Helper lemmas about creation -/

theorem find?_filter_of_imp (l : List MenuItem) (p q : MenuItem → Bool)
    (h : ∀ mi, q mi = true → p mi = true) :
    (l.filter p).find? q = l.find? q := by
  induction l with
  | nil => rfl
  | cons x xs ih =>
    cases hq : q x with
    | true =>
      have hp := h x hq
      simp [List.filter_cons, hp, List.find?_cons_of_pos, hq]
    | false =>
      cases hp : p x with
      | true => simp [List.filter_cons, hp, List.find?_cons_of_neg, hq, ih]
      | false => simp [List.filter_cons, hp, List.find?_cons_of_neg, hq, ih]

theorem priceOf_eq (catalog : List MenuItem) (mid : Nat) (mi : MenuItem)
    (h : catalog.find? (fun x => x.id == mid) = some mi) :
    priceOf catalog mid = mi.price := by
  simp [priceOf, h]

theorem buildItemsData_total (menuItems : List MenuItem) :
    ∀ (its : List ReqItem) (data : List OrderItem),
      buildItemsData menuItems its = some data →
      itemsTotal data =
        (its.map (fun it => priceOf menuItems it.menuItemId * it.quantity)).sum := by
  intro its
  induction its with
  | nil =>
    intro data h
    simp [buildItemsData] at h
    subst h
    simp [itemsTotal]
  | cons it rest ih =>
    intro data h
    simp only [buildItemsData] at h
    cases hf : menuItems.find? (fun mi => mi.id == it.menuItemId) with
    | none => rw [hf] at h; exact absurd h (by simp)
    | some mi =>
      rw [hf] at h
      cases hr : buildItemsData menuItems rest with
      | none => rw [hr] at h; exact absurd h (by simp)
      | some l =>
        rw [hr] at h
        have h2 : some (OrderItem.mk it.menuItemId it.quantity mi.price
            (orNull it.notes) :: l) = some data := h
        injection h2 with hdata
        subst hdata
        have hrec := ih l hr
        simp only [itemsTotal, List.map_cons, List.sum_cons] at hrec ⊢
        rw [hrec, priceOf_eq menuItems it.menuItemId mi hf]

theorem buildItemsData_quantities (menuItems : List MenuItem) :
    ∀ (its : List ReqItem) (data : List OrderItem),
      buildItemsData menuItems its = some data →
      data.map (fun d => d.quantity) = its.map (fun it => it.quantity) := by
  intro its
  induction its with
  | nil =>
    intro data h
    simp [buildItemsData] at h
    subst h
    rfl
  | cons it rest ih =>
    intro data h
    simp only [buildItemsData] at h
    cases hf : menuItems.find? (fun mi => mi.id == it.menuItemId) with
    | none => rw [hf] at h; exact absurd h (by simp)
    | some mi =>
      rw [hf] at h
      cases hr : buildItemsData menuItems rest with
      | none => rw [hr] at h; exact absurd h (by simp)
      | some l =>
        rw [hr] at h
        have h2 : some (OrderItem.mk it.menuItemId it.quantity mi.price
            (orNull it.notes) :: l) = some data := h
        injection h2 with hdata
        subst hdata
        simp [ih l hr]

/-- Concrete catalog used by the witnesses: the spec scenario of §8
(price 850 grill item, price 550 kitchen item). -/
def catalog0 : List MenuItem :=
  [{ id := 1, name := "Burger", price := 850, station := "grill", active := true },
   { id := 2, name := "Fries", price := 550, station := "kitchen", active := true }]

/-- The §8 scenario request: two of item 1, one of item 2. -/
def reqItems0 : List ReqItem :=
  [{ menuItemId := 1, quantity := 2, notes := none },
   { menuItemId := 2, quantity := 1, notes := none }]

/-- The order the create handler builds from `reqItems0` against `catalog0`. -/
def ord0 : Order :=
  { id := 1, orderNumber := 1, serverId := 10, status := "OPEN", tableNumber := none,
    totalPrice := 2250, createdAt := 0,
    items := [{ menuItemId := 1, quantity := 2, price := 850, notes := none },
              { menuItemId := 2, quantity := 1, price := 550, notes := none }] }

/-- C1: whenever `createOrder` succeeds, the `totalPrice` stored on the created
order equals the sum over the submitted items of quantity times the catalog
price of the referenced menu item at creation time. -/
theorem createOrder_totalPrice (catalog : List MenuItem)
    (serverId orderNumber oid createdAt : Nat)
    (items : List ReqItem) (tn : Option String) (o : Order)
    (h : createOrder catalog serverId orderNumber oid createdAt items tn = Except.ok o) :
    o.totalPrice = (items.map (fun it => it.quantity * priceOf catalog it.menuItemId)).sum := by
  simp only [createOrder] at h
  split at h
  · exact absurd h (by simp)
  · split at h
    · exact absurd h (by simp)
    · split at h
      · exact absurd h (by simp)
      · next data hb =>
        injection h with h3
        subst h3
        show itemsTotal data = _
        rw [buildItemsData_total _ items data hb]
        have hsame : ∀ it ∈ items,
            priceOf (catalog.filter
                (fun mi => (items.map (fun it => it.menuItemId)).contains mi.id))
              it.menuItemId * it.quantity =
              it.quantity * priceOf catalog it.menuItemId := by
          intro it hit
          have hfind : (catalog.filter
              (fun mi => (items.map (fun it => it.menuItemId)).contains mi.id)).find?
                (fun mi => mi.id == it.menuItemId) =
              catalog.find? (fun mi => mi.id == it.menuItemId) := by
            apply find?_filter_of_imp
            intro mi hq
            have hid : mi.id = it.menuItemId := by simpa using hq
            have hmem : mi.id ∈ items.map (fun it => it.menuItemId) := by
              rw [hid]
              exact List.mem_map_of_mem (fun it => it.menuItemId) hit
            exact List.elem_iff.mpr hmem
          unfold priceOf
          rw [hfind]
          exact Int.mul_comm _ _
        rw [List.map_congr_left hsame]

/-- Witness for C1 at the §8 scenario: the concrete request prices to 2250. -/
theorem createOrder_totalPrice_witness :
    createOrder catalog0 10 1 1 0 reqItems0 none = Except.ok ord0 ∧
    ord0.totalPrice =
      (reqItems0.map (fun it => it.quantity * priceOf catalog0 it.menuItemId)).sum :=
  ⟨by rfl, createOrder_totalPrice catalog0 10 1 1 0 reqItems0 none ord0 (by rfl)⟩

/-! ## C4: daily numbering -/

/-- C4: sequential numbering. Two consecutive `getNextOrderNumber` calls with
the same computed date return consecutive integers n and n+1, and a call whose
computed date differs from the stored date returns 1. -/
theorem getNextOrderNumber_consecutive_and_reset (today : String) (stored : OrderCounter) :
    ((getNextOrderNumber today (getNextOrderNumber today stored).2).1 =
      (getNextOrderNumber today stored).1 + 1) ∧
    (stored.date ≠ today → (getNextOrderNumber today stored).1 = 1) := by
  constructor
  · by_cases h : stored.date = today <;> simp [getNextOrderNumber, h]
  · intro h
    simp [getNextOrderNumber, h]

/-- Witness for C4: a stored counter of 41 from the previous day resets to 1,
and the next same-day call returns 2. -/
theorem getNextOrderNumber_witness :
    (OrderCounter.mk "2024-01-01" 41).date ≠ "2024-01-02" ∧
    (getNextOrderNumber "2024-01-02" (OrderCounter.mk "2024-01-01" 41)).1 = 1 ∧
    (getNextOrderNumber "2024-01-02"
        (getNextOrderNumber "2024-01-02" (OrderCounter.mk "2024-01-01" 41)).2).1 =
      (getNextOrderNumber "2024-01-02" (OrderCounter.mk "2024-01-01" 41)).1 + 1 :=
  ⟨by decide,
   (getNextOrderNumber_consecutive_and_reset "2024-01-02"
      (OrderCounter.mk "2024-01-01" 41)).2 (by decide),
   (getNextOrderNumber_consecutive_and_reset "2024-01-02"
      (OrderCounter.mk "2024-01-01" 41)).1⟩

/-! ## C10: duplicate menu item ids are rejected by the row-count check -/

theorem filtered_length_le_card (catalog : List MenuItem) (ids : List Nat)
    (hcat : (catalog.map (fun mi => mi.id)).Nodup) :
    (catalog.filter (fun mi => ids.contains mi.id)).length ≤ ids.toFinset.card := by
  have hsub : List.Sublist
      ((catalog.filter (fun mi => ids.contains mi.id)).map (fun mi => mi.id))
      (catalog.map (fun mi => mi.id)) :=
    (List.filter_sublist catalog).map (fun mi => mi.id)
  have hnd := List.Nodup.sublist hsub hcat
  have hss : ((catalog.filter (fun mi => ids.contains mi.id)).map
      (fun mi => mi.id)).toFinset ⊆ ids.toFinset := by
    intro x hx
    rw [List.mem_toFinset] at hx ⊢
    obtain ⟨mi, hmi, hx2⟩ := List.mem_map.mp hx
    have hc := (List.mem_filter.mp hmi).2
    subst hx2
    exact List.elem_iff.mp hc
  calc (catalog.filter (fun mi => ids.contains mi.id)).length
      = ((catalog.filter (fun mi => ids.contains mi.id)).map (fun mi => mi.id)).length :=
        (List.length_map _ _).symm
    _ = ((catalog.filter (fun mi => ids.contains mi.id)).map
          (fun mi => mi.id)).toFinset.card := (List.toFinset_card_of_nodup hnd).symm
    _ ≤ ids.toFinset.card := Finset.card_le_card hss

theorem toFinset_card_lt_of_not_nodup (ids : List Nat) (h : ¬ ids.Nodup) :
    ids.toFinset.card < ids.length := by
  rw [List.card_toFinset]
  have hsub := List.dedup_sublist ids
  cases Nat.lt_or_ge ids.dedup.length ids.length with
  | inl hlt => exact hlt
  | inr hge =>
    exfalso
    have heq := hsub.eq_of_length (Nat.le_antisymm hsub.length_le hge)
    have hnd := List.nodup_dedup ids
    rw [heq] at hnd
    exact h hnd

/-- C10: a create request in which the same `menuItemId` appears on two or
more lines is rejected by the row-count comparison with the
"One or more menu items not found" validation failure, even when every
referenced id exists in the catalog. -/
theorem createOrder_rejects_duplicate_ids (catalog : List MenuItem)
    (serverId orderNumber oid createdAt : Nat) (items : List ReqItem) (tn : Option String)
    (hcat : (catalog.map (fun mi => mi.id)).Nodup)
    (hdup : ¬ (items.map (fun it => it.menuItemId)).Nodup) :
    createOrder catalog serverId orderNumber oid createdAt items tn =
      Except.error (400, "One or more menu items not found") := by
  have hemp : items.isEmpty = false := by
    cases items with
    | nil => exact absurd List.nodup_nil hdup
    | cons a l => rfl
  have hlen : (catalog.filter
        (fun mi => (items.map (fun it => it.menuItemId)).contains mi.id)).length ≠
      (items.map (fun it => it.menuItemId)).length := by
    have h1 := filtered_length_le_card catalog (items.map (fun it => it.menuItemId)) hcat
    have h2 := toFinset_card_lt_of_not_nodup (items.map (fun it => it.menuItemId)) hdup
    exact Nat.ne_of_lt (Nat.lt_of_le_of_lt h1 h2)
  simp only [createOrder, hemp, Bool.false_eq_true, if_false]
  rw [if_pos hlen]

/-- Witness for C10: item 1 exists in the catalog but is submitted on two
lines; the request is rejected. -/
theorem createOrder_rejects_duplicate_ids_witness :
    (catalog0.map (fun mi => mi.id)).Nodup ∧
    ¬ (([ReqItem.mk 1 1 none, ReqItem.mk 1 1 none]).map (fun it => it.menuItemId)).Nodup ∧
    createOrder catalog0 10 1 1 0 [ReqItem.mk 1 1 none, ReqItem.mk 1 1 none] none =
      Except.error (400, "One or more menu items not found") :=
  ⟨by decide, by decide,
   createOrder_rejects_duplicate_ids catalog0 10 1 1 0
     [ReqItem.mk 1 1 none, ReqItem.mk 1 1 none] none (by decide) (by decide)⟩

/-! ## C8: quantities are not validated -/

/-- C8 counterexample: a request whose only line has quantity 0 is accepted
(HTTP 201), and the order is persisted with quantity 0 and totalPrice 0 —
no `ValidationError` occurs. -/
theorem createOrder_accepts_zero_quantity :
    createOrder catalog0 10 5 2 0 [ReqItem.mk 1 0 none] none =
      Except.ok (Order.mk 2 5 10 "OPEN" none 0 0 [OrderItem.mk 1 0 850 none]) ∧
    createOrderDb catalog0 [] 10 5 2 0 [ReqItem.mk 1 0 none] none =
      (201, [Order.mk 2 5 10 "OPEN" none 0 0 [OrderItem.mk 1 0 850 none]]) :=
  ⟨by rfl, by rfl⟩

theorem buildItemsData_isSome (menuItems : List MenuItem) :
    ∀ its : List ReqItem, (∀ it ∈ its, ∃ mi ∈ menuItems, mi.id = it.menuItemId) →
      ∃ data, buildItemsData menuItems its = some data := by
  intro its
  induction its with
  | nil => intro _; exact ⟨[], rfl⟩
  | cons it rest ih =>
    intro hall
    obtain ⟨mi, hmi, hid⟩ := hall it (by simp)
    have hf : (menuItems.find? (fun x => x.id == it.menuItemId)).isSome := by
      rw [List.find?_isSome]
      exact ⟨mi, hmi, by simp [hid]⟩
    obtain ⟨mi2, hmi2⟩ := Option.isSome_iff_exists.mp hf
    obtain ⟨l, hl⟩ := ih (fun x hx => hall x (by simp [hx]))
    refine ⟨OrderItem.mk it.menuItemId it.quantity mi2.price (orNull it.notes) :: l, ?_⟩
    simp only [buildItemsData]
    rw [hmi2, hl]

/-- C8 amended: `createOrder` performs no validation of quantities at all.
Whenever the id-level validation passes (non-empty items, pairwise distinct
ids, every id resolving in the catalog), the request succeeds for arbitrary
integer quantities — zero and negative included — and each persisted line
carries the submitted quantity verbatim. -/
theorem createOrder_no_quantity_validation (catalog : List MenuItem)
    (serverId orderNumber oid createdAt : Nat) (items : List ReqItem) (tn : Option String)
    (hne : items ≠ [])
    (hids : (items.map (fun it => it.menuItemId)).Nodup)
    (hcat : (catalog.map (fun mi => mi.id)).Nodup)
    (hres : ∀ it ∈ items, ∃ mi ∈ catalog, mi.id = it.menuItemId) :
    ∃ o, createOrder catalog serverId orderNumber oid createdAt items tn = Except.ok o ∧
      o.items.map (fun d => d.quantity) = items.map (fun it => it.quantity) := by
  have hemp : items.isEmpty = false := by
    cases items with
    | nil => exact absurd rfl hne
    | cons a l => rfl
  have hsub : List.Sublist ((catalog.filter
        (fun mi => (items.map (fun it => it.menuItemId)).contains mi.id)).map
      (fun mi => mi.id)) (catalog.map (fun mi => mi.id)) :=
    (List.filter_sublist catalog).map (fun mi => mi.id)
  have hnd := List.Nodup.sublist hsub hcat
  have hfin : ((catalog.filter
        (fun mi => (items.map (fun it => it.menuItemId)).contains mi.id)).map
      (fun mi => mi.id)).toFinset = (items.map (fun it => it.menuItemId)).toFinset := by
    apply Finset.ext
    intro x
    rw [List.mem_toFinset, List.mem_toFinset]
    constructor
    · intro hx
      obtain ⟨mi, hmi, hx2⟩ := List.mem_map.mp hx
      have hc := (List.mem_filter.mp hmi).2
      subst hx2
      exact List.elem_iff.mp hc
    · intro hx
      obtain ⟨it, hit, hx2⟩ := List.mem_map.mp hx
      obtain ⟨mi, hmi, hid⟩ := hres it hit
      subst hx2
      apply List.mem_map.mpr
      refine ⟨mi, ?_, hid⟩
      apply List.mem_filter.mpr
      refine ⟨hmi, ?_⟩
      apply List.elem_iff.mpr
      rw [hid]
      exact List.mem_map_of_mem (fun it => it.menuItemId) hit
  have hperm := List.perm_of_nodup_nodup_toFinset_eq hnd hids hfin
  have hlen : (catalog.filter
        (fun mi => (items.map (fun it => it.menuItemId)).contains mi.id)).length =
      (items.map (fun it => it.menuItemId)).length := by
    have := hperm.length_eq
    rwa [List.length_map] at this
  have hres2 : ∀ it ∈ items, ∃ mi ∈ catalog.filter
      (fun mi => (items.map (fun it => it.menuItemId)).contains mi.id),
      mi.id = it.menuItemId := by
    intro it hit
    obtain ⟨mi, hmi, hid⟩ := hres it hit
    refine ⟨mi, ?_, hid⟩
    apply List.mem_filter.mpr
    refine ⟨hmi, ?_⟩
    apply List.elem_iff.mpr
    rw [hid]
    exact List.mem_map_of_mem (fun it => it.menuItemId) hit
  obtain ⟨data, hdata⟩ := buildItemsData_isSome _ items hres2
  refine ⟨Order.mk oid orderNumber serverId "OPEN" (orNull tn)
    (itemsTotal data) createdAt data, ?_, ?_⟩
  · simp only [createOrder, hemp, Bool.false_eq_true, if_false]
    rw [if_neg (by rw [hlen]; exact fun hc => hc rfl), hdata]
  · exact buildItemsData_quantities _ items data hdata

/-- Witness for C8 amended: a negative quantity of -3 is accepted verbatim. -/
theorem createOrder_no_quantity_validation_witness :
    ([ReqItem.mk 1 (-3) none] : List ReqItem) ≠ [] ∧
    ∃ o, createOrder catalog0 10 1 1 0 [ReqItem.mk 1 (-3) none] none = Except.ok o ∧
      o.items.map (fun d => d.quantity) =
        ([ReqItem.mk 1 (-3) none].map (fun it => it.quantity)) :=
  ⟨by decide,
   createOrder_no_quantity_validation catalog0 10 1 1 0 [ReqItem.mk 1 (-3) none] none
     (by decide) (by decide) (by decide) (by decide)⟩

/-! ## Order mutation operations over the persisted store -/

/-- Prisma `findUnique` on the `Order` table. -/
def findOrder (db : List Order) (oid : Nat) : Option Order :=
  db.find? (fun o => o.id == oid)

/-- Prisma `update` on the `Order` table: replace the row with the given
primary key. -/
def replaceOrder (db : List Order) (oid : Nat) (o2 : Order) : List Order :=
  db.map (fun x => if x.id == oid then o2 else x)

/-- Outcome of `PATCH /orders/:id`; every constructor carries the post-state
of the store, so partial application is observable in the theorems. -/
inductive UpdateResult where
  | notFound (db : List Order)
  | invalidState (db : List Order)
  | serverError (db : List Order)
  | ok (db : List Order) (o : Order)
deriving DecidableEq

/-- The post-state of the store carried by a `PATCH /orders/:id` outcome. -/
def UpdateResult.db : UpdateResult → List Order
  | UpdateResult.notFound db => db
  | UpdateResult.invalidState db => db
  | UpdateResult.serverError db => db
  | UpdateResult.ok db _ => db

/-- `if (status) updateData.status = status`: a missing or falsy (empty)
status string leaves the stored status unchanged; any other string is
persisted verbatim, with no validation against the closed status set. -/
def applyStatusField (s? : Option String) (old : String) : String :=
  match s? with
  | some s => if s = "" then old else s
  | none => old

/-- `PATCH /orders/:id` handler body after authentication and role check,
faithful to its statement order: when `items` is provided, the existing rows
are removed by a separate `deleteMany` BEFORE the replacement rows are built,
and the build throws (HTTP 500) on an unresolvable `menuItemId`, leaving the
order with no items (`serverError` carries that partially-applied store). -/
def updateOrder (catalog : List MenuItem) (db : List Order) (oid : Nat)
    (items? : Option (List ReqItem)) (status? : Option String)
    (tn? : Option (Option String)) : UpdateResult :=
  match findOrder db oid with
  | none => UpdateResult.notFound db
  | some o =>
    if o.status ≠ "OPEN" then UpdateResult.invalidState db
    else
      match items? with
      | none =>
        UpdateResult.ok
          (replaceOrder db oid
            { o with status := applyStatusField status? o.status,
                     tableNumber := tn?.getD o.tableNumber })
          { o with status := applyStatusField status? o.status,
                   tableNumber := tn?.getD o.tableNumber }
      | some its =>
        match buildItemsData
            (catalog.filter
              (fun mi => (its.map (fun it => it.menuItemId)).contains mi.id)) its with
        | none =>
          UpdateResult.serverError
            (db.map (fun x => if x.id == oid then { x with items := [] } else x))
        | some data =>
          UpdateResult.ok
            (replaceOrder db oid
              { o with items := data, totalPrice := itemsTotal data,
                       status := applyStatusField status? o.status,
                       tableNumber := tn?.getD o.tableNumber })
            { o with items := data, totalPrice := itemsTotal data,
                     status := applyStatusField status? o.status,
                     tableNumber := tn?.getD o.tableNumber }

/-- `PATCH /orders/:id/served` handler body: ownership check, then status
guard, then transition to `SERVED`. Returns HTTP code and post-state. -/
def markServed (db : List Order) (actorId oid : Nat) : Nat × List Order :=
  match findOrder db oid with
  | none => (404, db)
  | some o =>
    if o.serverId ≠ actorId then (403, db)
    else if o.status ≠ "OPEN" then (400, db)
    else (200, replaceOrder db oid { o with status := "SERVED" })

/-- `PATCH /orders/:id/done` handler body: ownership check, then status
guard, then transition to `DONE`. -/
def markDone (db : List Order) (actorId oid : Nat) : Nat × List Order :=
  match findOrder db oid with
  | none => (404, db)
  | some o =>
    if o.serverId ≠ actorId then (403, db)
    else if o.status ≠ "OPEN" then (400, db)
    else (200, replaceOrder db oid { o with status := "DONE" })

/-- `PATCH /orders/:id/checkout` handler body: only `OPEN` or `SERVED` orders
can be completed. -/
def checkout (db : List Order) (oid : Nat) : Nat × List Order :=
  match findOrder db oid with
  | none => (404, db)
  | some o =>
    if o.status ≠ "OPEN" ∧ o.status ≠ "SERVED" then (400, db)
    else (200, replaceOrder db oid { o with status := "COMPLETED" })

/-- The station of an order line, resolved through its menu item. -/
def stationOf (catalog : List MenuItem) (it : OrderItem) : Option String :=
  (catalog.find? (fun mi => mi.id == it.menuItemId)).map (fun mi => mi.station)

/-- Does the order contain at least one item routed to `station`? -/
def hasStationItem (catalog : List MenuItem) (station : String) (o : Order) : Bool :=
  o.items.any (fun it => stationOf catalog it == some station)

/-- Insert into a list sorted by ascending `createdAt`. -/
def insertByCreatedAt (o : Order) : List Order → List Order
  | [] => [o]
  | x :: xs =>
    if o.createdAt ≤ x.createdAt then o :: x :: xs else x :: insertByCreatedAt o xs

/-- The store's `orderBy createdAt asc`. -/
def sortByCreatedAt : List Order → List Order
  | [] => []
  | x :: xs => insertByCreatedAt x (sortByCreatedAt xs)

/-- `DELETE /orders/grill` handler body: bulk-complete every `OPEN` order that
contains a grill item. -/
def clearGrill (catalog : List MenuItem) (db : List Order) : Nat × List Order :=
  if ((db.filter (fun o => o.status == "OPEN" && hasStationItem catalog "grill" o)).map
      (fun o => o.id)).isEmpty then (200, db)
  else
    (200, db.map (fun o =>
      if ((db.filter (fun o => o.status == "OPEN" && hasStationItem catalog "grill" o)).map
          (fun o => o.id)).contains o.id then { o with status := "COMPLETED" } else o))

/-- `DELETE /orders/last` handler body: the most recently created `OPEN` order
of the actor is set to `CANCELLED` (404 when there is none). -/
def cancelLastOrder (db : List Order) (actorId : Nat) : Nat × List Order :=
  match (sortByCreatedAt
      (db.filter (fun o => o.serverId == actorId && o.status == "OPEN"))).getLast? with
  | none => (404, db)
  | some o => (200, replaceOrder db o.id { o with status := "CANCELLED" })

/-- `DELETE /orders/:id` handler body: ownership check then hard delete (the
store cascades to the items). -/
def deleteOrder (db : List Order) (actorId oid : Nat) : Nat × List Order :=
  match findOrder db oid with
  | none => (404, db)
  | some o =>
    if o.serverId ≠ actorId then (403, db)
    else (200, db.filter (fun x => x.id != oid))

/-- The modeled mutating operations of the order engine (§4.2). -/
inductive Op where
  | update (catalog : List MenuItem) (oid : Nat) (items? : Option (List ReqItem))
      (status? : Option String) (tn? : Option (Option String))
  | served (actorId oid : Nat)
  | done (actorId oid : Nat)
  | checkoutOf (oid : Nat)
  | cancelLast (actorId : Nat)
  | deleteById (actorId oid : Nat)
  | clearGrillAll (catalog : List MenuItem)

/-- The post-state of the store after an operation, whatever the outcome. -/
def applyOp (op : Op) (db : List Order) : List Order :=
  match op with
  | Op.update catalog oid items? status? tn? =>
    (updateOrder catalog db oid items? status? tn?).db
  | Op.served a oid => (markServed db a oid).2
  | Op.done a oid => (markDone db a oid).2
  | Op.checkoutOf oid => (checkout db oid).2
  | Op.cancelLast a => (cancelLastOrder db a).2
  | Op.deleteById a oid => (deleteOrder db a oid).2
  | Op.clearGrillAll catalog => (clearGrill catalog db).2

/-! ### Store lemmas -/

theorem findOrder_mem (db : List Order) (oid : Nat) (o : Order)
    (h : findOrder db oid = some o) : o ∈ db ∧ o.id = oid := by
  refine ⟨List.mem_of_find?_eq_some h, ?_⟩
  have hp := List.find?_some h
  simpa using hp

theorem order_eq_of_id (db : List Order) (hnd : (db.map (fun o => o.id)).Nodup)
    {a b : Order} (ha : a ∈ db) (hb : b ∈ db) (hid : a.id = b.id) : a = b :=
  List.inj_on_of_nodup_map hnd ha hb hid

theorem mem_condMap (db : List Order) (p : Order → Bool) (f : Order → Order) (x : Order)
    (hx : x ∈ db.map (fun y => if p y then f y else y)) :
    (∃ y, y ∈ db ∧ p y = true ∧ f y = x) ∨ (x ∈ db ∧ p x = false) := by
  obtain ⟨y, hy, hxy⟩ := List.mem_map.mp hx
  cases hp : p y with
  | true =>
    rw [if_pos hp] at hxy
    exact Or.inl ⟨y, hy, hp, hxy⟩
  | false =>
    rw [if_neg (by simp [hp])] at hxy
    subst hxy
    exact Or.inr ⟨hy, hp⟩

theorem idCondMap_frame (db : List Order) (hnd : (db.map (fun o => o.id)).Nodup)
    (oid : Nat) (o : Order) (ho : o ∈ db) (hoid : o.id = oid) (f : Order → Order)
    (hf : ∀ y, y ∈ db → (y.id == oid) = true → (f y).id = oid)
    (t t2 : Order) (hto : t ≠ o) (ht : t ∈ db)
    (ht2 : t2 ∈ db.map (fun y => if y.id == oid then f y else y)) (hid : t2.id = t.id) :
    t2 = t := by
  cases mem_condMap db (fun y => y.id == oid) f t2 ht2 with
  | inl hc =>
    obtain ⟨y, hy, hp, hfy⟩ := hc
    exfalso
    apply hto
    apply order_eq_of_id db hnd ht ho
    rw [← hid, ← hfy, hf y hy hp, hoid]
  | inr hc => exact order_eq_of_id db hnd hc.1 ht hid

theorem replaceOrder_frame (db : List Order) (hnd : (db.map (fun o => o.id)).Nodup)
    (oid : Nat) (o : Order) (ho : o ∈ db) (hoid : o.id = oid) (o2 : Order)
    (t t2 : Order) (hto : t ≠ o) (ht : t ∈ db)
    (ht2 : t2 ∈ replaceOrder db oid o2) (ho2 : o2.id = oid) (hid : t2.id = t.id) : t2 = t :=
  idCondMap_frame db hnd oid o ho hoid (fun _ => o2) (fun _ _ _ => ho2) t t2 hto ht ht2 hid

theorem mem_insertByCreatedAt (o x : Order) (l : List Order) :
    x ∈ insertByCreatedAt o l ↔ x = o ∨ x ∈ l := by
  induction l with
  | nil => simp [insertByCreatedAt]
  | cons y ys ih =>
    by_cases h : o.createdAt ≤ y.createdAt
    · simp only [insertByCreatedAt, if_pos h]
      exact List.mem_cons
    · simp only [insertByCreatedAt, if_neg h, List.mem_cons, ih]
      tauto

theorem mem_sortByCreatedAt (x : Order) (l : List Order) :
    x ∈ sortByCreatedAt l ↔ x ∈ l := by
  induction l with
  | nil => simp [sortByCreatedAt]
  | cons y ys ih =>
    simp only [sortByCreatedAt, mem_insertByCreatedAt, List.mem_cons, ih]

/-! ### Frame lemmas: rows that are neither OPEN nor SERVED are untouched -/

theorem updateOrder_db_frame (catalog : List MenuItem) (db : List Order) (oid : Nat)
    (items? : Option (List ReqItem)) (status? : Option String) (tn? : Option (Option String))
    (hnd : (db.map (fun o => o.id)).Nodup)
    (t : Order) (ht : t ∈ db) (h1 : t.status ≠ "OPEN")
    (t2 : Order) (ht2 : t2 ∈ (updateOrder catalog db oid items? status? tn?).db)
    (hid : t2.id = t.id) : t2 = t := by
  unfold updateOrder at ht2
  split at ht2
  · exact order_eq_of_id db hnd ht2 ht hid
  · next o hfo =>
    obtain ⟨ho, hoid⟩ := findOrder_mem db oid o hfo
    split at ht2
    · exact order_eq_of_id db hnd ht2 ht hid
    · next hst =>
      push_neg at hst
      have hto : t ≠ o := fun he => h1 (by rw [he, hst])
      split at ht2
      · exact replaceOrder_frame db hnd oid o ho hoid _ t t2 hto ht ht2 hoid hid
      · split at ht2
        · exact idCondMap_frame db hnd oid o ho hoid (fun x => { x with items := [] })
            (fun y _ hp => by simpa using hp) t t2 hto ht ht2 hid
        · exact replaceOrder_frame db hnd oid o ho hoid _ t t2 hto ht ht2 hoid hid

theorem markServed_frame (db : List Order) (a oid : Nat)
    (hnd : (db.map (fun o => o.id)).Nodup)
    (t : Order) (ht : t ∈ db) (h1 : t.status ≠ "OPEN")
    (t2 : Order) (ht2 : t2 ∈ (markServed db a oid).2) (hid : t2.id = t.id) : t2 = t := by
  unfold markServed at ht2
  split at ht2
  · exact order_eq_of_id db hnd ht2 ht hid
  · next o hfo =>
    obtain ⟨ho, hoid⟩ := findOrder_mem db oid o hfo
    split at ht2
    · exact order_eq_of_id db hnd ht2 ht hid
    · split at ht2
      · exact order_eq_of_id db hnd ht2 ht hid
      · next hst =>
        push_neg at hst
        have hto : t ≠ o := fun he => h1 (by rw [he, hst])
        exact replaceOrder_frame db hnd oid o ho hoid _ t t2 hto ht ht2 hoid hid

theorem markDone_frame (db : List Order) (a oid : Nat)
    (hnd : (db.map (fun o => o.id)).Nodup)
    (t : Order) (ht : t ∈ db) (h1 : t.status ≠ "OPEN")
    (t2 : Order) (ht2 : t2 ∈ (markDone db a oid).2) (hid : t2.id = t.id) : t2 = t := by
  unfold markDone at ht2
  split at ht2
  · exact order_eq_of_id db hnd ht2 ht hid
  · next o hfo =>
    obtain ⟨ho, hoid⟩ := findOrder_mem db oid o hfo
    split at ht2
    · exact order_eq_of_id db hnd ht2 ht hid
    · split at ht2
      · exact order_eq_of_id db hnd ht2 ht hid
      · next hst =>
        push_neg at hst
        have hto : t ≠ o := fun he => h1 (by rw [he, hst])
        exact replaceOrder_frame db hnd oid o ho hoid _ t t2 hto ht ht2 hoid hid

theorem checkout_frame (db : List Order) (oid : Nat)
    (hnd : (db.map (fun o => o.id)).Nodup)
    (t : Order) (ht : t ∈ db) (h1 : t.status ≠ "OPEN") (h2 : t.status ≠ "SERVED")
    (t2 : Order) (ht2 : t2 ∈ (checkout db oid).2) (hid : t2.id = t.id) : t2 = t := by
  unfold checkout at ht2
  split at ht2
  · exact order_eq_of_id db hnd ht2 ht hid
  · next o hfo =>
    obtain ⟨ho, hoid⟩ := findOrder_mem db oid o hfo
    split at ht2
    · exact order_eq_of_id db hnd ht2 ht hid
    · next hst =>
      have hto : t ≠ o := by
        intro he
        rcases Decidable.not_and_iff_or_not.mp hst with hc | hc
        · exact h1 (by rw [he]; exact Decidable.not_not.mp hc)
        · exact h2 (by rw [he]; exact Decidable.not_not.mp hc)
      exact replaceOrder_frame db hnd oid o ho hoid _ t t2 hto ht ht2 hoid hid

theorem cancelLastOrder_frame (db : List Order) (a : Nat)
    (hnd : (db.map (fun o => o.id)).Nodup)
    (t : Order) (ht : t ∈ db) (h1 : t.status ≠ "OPEN")
    (t2 : Order) (ht2 : t2 ∈ (cancelLastOrder db a).2) (hid : t2.id = t.id) : t2 = t := by
  unfold cancelLastOrder at ht2
  split at ht2
  · exact order_eq_of_id db hnd ht2 ht hid
  · next o hgl =>
    have hmem := (mem_sortByCreatedAt o _).mp (List.mem_of_getLast?_eq_some hgl)
    have ho : o ∈ db := List.mem_of_mem_filter hmem
    have hflt := (List.mem_filter.mp hmem).2
    have hopen : o.status = "OPEN" := by
      have := (Bool.and_eq_true _ _).mp hflt
      simpa using this.2
    have hto : t ≠ o := fun he => h1 (by rw [he, hopen])
    exact replaceOrder_frame db hnd o.id o ho rfl _ t t2 hto ht ht2 rfl hid

theorem deleteOrder_frame (db : List Order) (a oid : Nat)
    (hnd : (db.map (fun o => o.id)).Nodup)
    (t : Order) (ht : t ∈ db)
    (t2 : Order) (ht2 : t2 ∈ (deleteOrder db a oid).2) (hid : t2.id = t.id) : t2 = t := by
  unfold deleteOrder at ht2
  split at ht2
  · exact order_eq_of_id db hnd ht2 ht hid
  · split at ht2
    · exact order_eq_of_id db hnd ht2 ht hid
    · exact order_eq_of_id db hnd (List.mem_of_mem_filter ht2) ht hid

theorem clearGrill_frame (catalog : List MenuItem) (db : List Order)
    (hnd : (db.map (fun o => o.id)).Nodup)
    (t : Order) (ht : t ∈ db) (h1 : t.status ≠ "OPEN")
    (t2 : Order) (ht2 : t2 ∈ (clearGrill catalog db).2) (hid : t2.id = t.id) : t2 = t := by
  unfold clearGrill at ht2
  by_cases hemp : ((db.filter
      (fun o => o.status == "OPEN" && hasStationItem catalog "grill" o)).map
      (fun o => o.id)).isEmpty
  · rw [if_pos hemp] at ht2
    exact order_eq_of_id db hnd ht2 ht hid
  · rw [if_neg hemp] at ht2
    cases mem_condMap db _ _ t2 ht2 with
    | inl hc =>
      obtain ⟨y, hy, hp, hfy⟩ := hc
      exfalso
      obtain ⟨g, hg, hgid⟩ := List.mem_map.mp (List.elem_iff.mp hp)
      have hgdb : g ∈ db := List.mem_of_mem_filter hg
      have hgopen : g.status = "OPEN" := by
        have := (Bool.and_eq_true _ _).mp (List.mem_filter.mp hg).2
        simpa using this.1
      apply h1
      have htg : t = g := by
        apply order_eq_of_id db hnd ht hgdb
        rw [← hid, ← hfy]
        exact hgid.symm
      rw [htg, hgopen]
    | inr hc => exact order_eq_of_id db hnd hc.1 ht hid

/-- Every modeled operation leaves every row whose status is neither `OPEN`
nor `SERVED` exactly as it was. -/
theorem applyOp_frame (op : Op) (db : List Order)
    (hnd : (db.map (fun o => o.id)).Nodup)
    (t : Order) (ht : t ∈ db) (h1 : t.status ≠ "OPEN") (h2 : t.status ≠ "SERVED")
    (t2 : Order) (ht2 : t2 ∈ applyOp op db) (hid : t2.id = t.id) : t2 = t := by
  cases op with
  | update catalog oid items? status? tn? =>
    exact updateOrder_db_frame catalog db oid items? status? tn? hnd t ht h1 t2 ht2 hid
  | served a oid => exact markServed_frame db a oid hnd t ht h1 t2 ht2 hid
  | done a oid => exact markDone_frame db a oid hnd t ht h1 t2 ht2 hid
  | checkoutOf oid => exact checkout_frame db oid hnd t ht h1 h2 t2 ht2 hid
  | cancelLast a => exact cancelLastOrder_frame db a hnd t ht h1 t2 ht2 hid
  | deleteById a oid => exact deleteOrder_frame db a oid hnd t ht t2 ht2 hid
  | clearGrillAll catalog => exact clearGrill_frame catalog db hnd t ht h1 t2 ht2 hid

/-! ### Status guards -/

theorem updateOrder_guard (catalog : List MenuItem) (db : List Order) (oid : Nat)
    (items? : Option (List ReqItem)) (status? : Option String) (tn? : Option (Option String))
    (o : Order) (hfo : findOrder db oid = some o) (hst : o.status ≠ "OPEN") :
    updateOrder catalog db oid items? status? tn? = UpdateResult.invalidState db := by
  unfold updateOrder
  rw [hfo]
  simp only [if_pos hst]

theorem markServed_guard (db : List Order) (a oid : Nat) (o : Order)
    (hfo : findOrder db oid = some o) (hown : o.serverId = a) (hst : o.status ≠ "OPEN") :
    markServed db a oid = (400, db) := by
  unfold markServed
  rw [hfo]
  simp only [if_neg (show ¬ o.serverId ≠ a from fun hc => hc hown), if_pos hst]

theorem markDone_guard (db : List Order) (a oid : Nat) (o : Order)
    (hfo : findOrder db oid = some o) (hown : o.serverId = a) (hst : o.status ≠ "OPEN") :
    markDone db a oid = (400, db) := by
  unfold markDone
  rw [hfo]
  simp only [if_neg (show ¬ o.serverId ≠ a from fun hc => hc hown), if_pos hst]

theorem checkout_guard (db : List Order) (oid : Nat) (o : Order)
    (hfo : findOrder db oid = some o) (h1 : o.status ≠ "OPEN") (h2 : o.status ≠ "SERVED") :
    checkout db oid = (400, db) := by
  unfold checkout
  rw [hfo]
  simp only [if_pos (And.intro h1 h2)]

/-- C3: the status state machine. A non-`OPEN` order is rejected by
`updateOrder`, `markServed` and `markDone` with the invalid-state failure
(HTTP 400, store untouched); `checkout` rejects any order that is neither
`OPEN` nor `SERVED`; and no modeled operation ever changes the status of an
order whose status is `COMPLETED`, `CANCELLED` or `DONE` — in particular such
an order can never re-enter `OPEN`. -/
theorem order_state_machine :
    (∀ (catalog : List MenuItem) (db : List Order) (oid : Nat)
       (items? : Option (List ReqItem)) (status? : Option String)
       (tn? : Option (Option String)) (o : Order),
       findOrder db oid = some o → o.status ≠ "OPEN" →
       updateOrder catalog db oid items? status? tn? = UpdateResult.invalidState db) ∧
    (∀ (db : List Order) (a oid : Nat) (o : Order),
       findOrder db oid = some o → o.serverId = a → o.status ≠ "OPEN" →
       markServed db a oid = (400, db)) ∧
    (∀ (db : List Order) (a oid : Nat) (o : Order),
       findOrder db oid = some o → o.serverId = a → o.status ≠ "OPEN" →
       markDone db a oid = (400, db)) ∧
    (∀ (db : List Order) (oid : Nat) (o : Order),
       findOrder db oid = some o → o.status ≠ "OPEN" → o.status ≠ "SERVED" →
       checkout db oid = (400, db)) ∧
    (∀ (op : Op) (db : List Order), (db.map (fun o => o.id)).Nodup →
       ∀ t ∈ db, (t.status = "COMPLETED" ∨ t.status = "CANCELLED" ∨ t.status = "DONE") →
       ∀ t2 ∈ applyOp op db, t2.id = t.id → t2.status = t.status) := by
  refine ⟨updateOrder_guard, markServed_guard, markDone_guard, checkout_guard, ?_⟩
  intro op db hnd t ht hterm t2 ht2 hid
  have h1 : t.status ≠ "OPEN" := by
    rcases hterm with h | h | h <;> rw [h] <;> decide
  have h2 : t.status ≠ "SERVED" := by
    rcases hterm with h | h | h <;> rw [h] <;> decide
  rw [applyOp_frame op db hnd t ht h1 h2 t2 ht2 hid]

/-- A one-row store holding a COMPLETED order, for the C3 witness. -/
def dbCompleted : List Order :=
  [Order.mk 1 7 10 "COMPLETED" none 2250 0 []]

/-- Witness for C3 on a COMPLETED order: update, served, done and checkout
all reject it, and a checkout attempt leaves its status COMPLETED. -/
theorem order_state_machine_witness :
    updateOrder catalog0 dbCompleted 1 none (some "OPEN") none =
      UpdateResult.invalidState dbCompleted ∧
    markServed dbCompleted 10 1 = (400, dbCompleted) ∧
    markDone dbCompleted 10 1 = (400, dbCompleted) ∧
    checkout dbCompleted 1 = (400, dbCompleted) ∧
    (Order.mk 1 7 10 "COMPLETED" none 2250 0 []).status =
      (Order.mk 1 7 10 "COMPLETED" none 2250 0 []).status :=
  ⟨order_state_machine.1 catalog0 dbCompleted 1 none (some "OPEN") none
     (Order.mk 1 7 10 "COMPLETED" none 2250 0 []) (by rfl) (by decide),
   order_state_machine.2.1 dbCompleted 10 1
     (Order.mk 1 7 10 "COMPLETED" none 2250 0 []) (by rfl) (by decide) (by decide),
   order_state_machine.2.2.1 dbCompleted 10 1
     (Order.mk 1 7 10 "COMPLETED" none 2250 0 []) (by rfl) (by decide) (by decide),
   order_state_machine.2.2.2.1 dbCompleted 1
     (Order.mk 1 7 10 "COMPLETED" none 2250 0 []) (by rfl) (by decide) (by decide),
   order_state_machine.2.2.2.2 (Op.checkoutOf 1) dbCompleted (by decide)
     (Order.mk 1 7 10 "COMPLETED" none 2250 0 []) (by decide) (by decide)
     (Order.mk 1 7 10 "COMPLETED" none 2250 0 []) (by decide) (by decide)⟩

/-! ## C9: updateOrder persists arbitrary status strings -/

theorem findOrder_replaceOrder (db : List Order) (oid : Nat) (o o2 : Order)
    (hfo : findOrder db oid = some o) (ho2 : (o2.id == oid) = true) :
    findOrder (replaceOrder db oid o2) oid = some o2 := by
  induction db with
  | nil => simp [findOrder] at hfo
  | cons x xs ih =>
    by_cases hx : (x.id == oid) = true
    · unfold findOrder replaceOrder
      rw [List.map_cons, if_pos hx]
      exact List.find?_cons_of_pos _ ho2
    · unfold findOrder at hfo ⊢
      unfold replaceOrder at ih ⊢
      rw [@List.find?_cons_of_neg Order (fun o => o.id == oid) x xs hx] at hfo
      rw [List.map_cons, if_neg hx,
        @List.find?_cons_of_neg Order (fun o => o.id == oid) x _ hx]
      exact ih hfo

/-- C9: `PATCH /orders/:id` does not validate the supplied status value. For
every stored order in status `OPEN` and every non-empty string `s` supplied as
the body's `status`, the operation succeeds and persists `s` verbatim as the
order's new status (strings outside the closed status set included). -/
theorem updateOrder_persists_any_status (catalog : List MenuItem) (db : List Order)
    (oid : Nat) (o : Order) (s : String)
    (hfo : findOrder db oid = some o) (hopen : o.status = "OPEN") (hs : s ≠ "") :
    updateOrder catalog db oid none (some s) none =
      UpdateResult.ok (replaceOrder db oid { o with status := s }) { o with status := s } ∧
    findOrder (replaceOrder db oid { o with status := s }) oid =
      some { o with status := s } := by
  constructor
  · unfold updateOrder
    rw [hfo]
    simp only [if_neg (show ¬ o.status ≠ "OPEN" from fun hc => hc hopen)]
    simp [applyStatusField, hs]
  · have hoid := (findOrder_mem db oid o hfo).2
    exact findOrder_replaceOrder db oid o { o with status := s } hfo (by simp [hoid])

/-- A one-row store holding an OPEN order, for the C9 and C2 witnesses. -/
def dbOpen : List Order :=
  [Order.mk 1 7 10 "OPEN" none 1700 0 [OrderItem.mk 1 2 850 none]]

/-- Witness for C9: the garbage status string is persisted verbatim. -/
theorem updateOrder_persists_any_status_witness :
    ("NOT_A_REAL_STATUS" : String) ≠ "" ∧
    updateOrder catalog0 dbOpen 1 none (some "NOT_A_REAL_STATUS") none =
      UpdateResult.ok
        (replaceOrder dbOpen 1
          { Order.mk 1 7 10 "OPEN" none 1700 0 [OrderItem.mk 1 2 850 none] with
              status := "NOT_A_REAL_STATUS" })
        { Order.mk 1 7 10 "OPEN" none 1700 0 [OrderItem.mk 1 2 850 none] with
            status := "NOT_A_REAL_STATUS" } :=
  ⟨by decide,
   (updateOrder_persists_any_status catalog0 dbOpen 1
      (Order.mk 1 7 10 "OPEN" none 1700 0 [OrderItem.mk 1 2 850 none])
      "NOT_A_REAL_STATUS" (by rfl) (by decide) (by decide)).1⟩

/-! ## C2: item replacement is not atomic -/

/-- C2: `PATCH /orders/:id` with an item list containing an unresolvable
`menuItemId` fails with HTTP 500 AFTER the `deleteMany` has already removed
the order's existing items: the persisted store ends with the order stripped
of its items (and its stale `totalPrice`), not in its pre-call state. This is
exactly the partial application the spec calls a correctness bug. -/
theorem updateOrder_partial_application :
    updateOrder catalog0 dbOpen 1 (some [ReqItem.mk 99 1 none]) none none =
      UpdateResult.serverError [Order.mk 1 7 10 "OPEN" none 1700 0 []] ∧
    UpdateResult.serverError [Order.mk 1 7 10 "OPEN" none 1700 0 []] ≠
      UpdateResult.serverError dbOpen ∧
    (Order.mk 1 7 10 "OPEN" none 1700 0 []).items = [] ∧
    (Order.mk 1 7 10 "OPEN" none 1700 0 []).totalPrice = 1700 :=
  ⟨by rfl, by decide, rfl, rfl⟩

/-! ## C5: GET /orders/grill (listByStation) -/

/-- `GET /orders/grill` handler body (station generalized): all `OPEN` orders
having at least one item of the station, each with its item list filtered to
that station's items, ordered by `createdAt` ascending — mirroring the Prisma
`where`/`include.where`/`orderBy` clauses. -/
def listByStation (catalog : List MenuItem) (db : List Order) (station : String) :
    List Order :=
  (sortByCreatedAt
      (db.filter (fun o => o.status == "OPEN" && hasStationItem catalog station o))).map
    (fun o =>
      { o with items := o.items.filter (fun it => stationOf catalog it == some station) })

theorem pairwise_insertByCreatedAt (o : Order) (l : List Order)
    (hl : l.Pairwise (fun a b => a.createdAt ≤ b.createdAt)) :
    (insertByCreatedAt o l).Pairwise (fun a b => a.createdAt ≤ b.createdAt) := by
  induction l with
  | nil => simp [insertByCreatedAt]
  | cons y ys ih =>
    rcases List.pairwise_cons.mp hl with ⟨hy, hys⟩
    by_cases h : o.createdAt ≤ y.createdAt
    · simp only [insertByCreatedAt, if_pos h]
      refine List.pairwise_cons.mpr ⟨?_, hl⟩
      intro b hb
      rcases List.mem_cons.mp hb with hb1 | hb2
      · rw [hb1]; exact h
      · exact Nat.le_trans h (hy b hb2)
    · simp only [insertByCreatedAt, if_neg h]
      refine List.pairwise_cons.mpr ⟨?_, ih hys⟩
      intro b hb
      rcases (mem_insertByCreatedAt o b ys).mp hb with hb1 | hb2
      · rw [hb1]; exact Nat.le_of_not_le h
      · exact hy b hb2

theorem pairwise_sortByCreatedAt (l : List Order) :
    (sortByCreatedAt l).Pairwise (fun a b => a.createdAt ≤ b.createdAt) := by
  induction l with
  | nil => simp [sortByCreatedAt]
  | cons y ys ih => exact pairwise_insertByCreatedAt y (sortByCreatedAt ys) ih

/-- C5: `listByStation "grill"` returns exactly the `OPEN` orders containing
at least one grill item: every returned order is `OPEN` and carries a
non-empty item list of grill-station items only; every `OPEN` stored order
with a grill item appears (with its items filtered to the grill station); and
the result is ordered oldest-first by creation time. -/
theorem listByStation_grill_spec (catalog : List MenuItem) (db : List Order) :
    (∀ o ∈ listByStation catalog db "grill",
        o.status = "OPEN" ∧ o.items ≠ [] ∧
        ∀ it ∈ o.items, stationOf catalog it = some "grill") ∧
    (∀ o ∈ db, o.status = "OPEN" →
        (∃ it ∈ o.items, stationOf catalog it = some "grill") →
        ∃ o2 ∈ listByStation catalog db "grill",
          o2.id = o.id ∧
          o2.items = o.items.filter (fun it => stationOf catalog it == some "grill")) ∧
    (listByStation catalog db "grill").Pairwise
      (fun a b => a.createdAt ≤ b.createdAt) := by
  refine ⟨?_, ?_, ?_⟩
  · intro o ho
    obtain ⟨y, hy, hyo⟩ := List.mem_map.mp ho
    have hy2 := (mem_sortByCreatedAt y _).mp hy
    have hpred := (List.mem_filter.mp hy2).2
    rcases (Bool.and_eq_true _ _).mp hpred with ⟨hst, hhas⟩
    subst hyo
    refine ⟨by simpa using hst, ?_, ?_⟩
    · obtain ⟨it, hit, hsta⟩ := List.any_eq_true.mp hhas
      have : it ∈ y.items.filter
          (fun it => stationOf catalog it == some "grill") :=
        List.mem_filter.mpr ⟨hit, hsta⟩
      exact List.ne_nil_of_mem this
    · intro it hit
      have := (List.mem_filter.mp hit).2
      simpa using this
  · intro o ho hst hex
    refine ⟨{ o with items := o.items.filter (fun it => stationOf catalog it == some "grill") }, ?_, rfl, rfl⟩
    apply List.mem_map.mpr
    refine ⟨o, ?_, rfl⟩
    apply (mem_sortByCreatedAt o _).mpr
    apply List.mem_filter.mpr
    refine ⟨ho, ?_⟩
    apply (Bool.and_eq_true _ _).mpr
    constructor
    · simpa using hst
    · apply List.any_eq_true.mpr
      obtain ⟨it, hit, hsta⟩ := hex
      exact ⟨it, hit, by simpa using hsta⟩
  · apply List.pairwise_map.mpr
    exact pairwise_sortByCreatedAt _

/-- Store used by the C5 witness: a kitchen-only open order (created last), a
mixed grill+kitchen open order, and a completed grill order (created first). -/
def dbStations : List Order :=
  [Order.mk 3 3 10 "OPEN" none 550 7 [OrderItem.mk 2 1 550 none],
   Order.mk 2 2 10 "OPEN" none 2250 5 [OrderItem.mk 1 2 850 none, OrderItem.mk 2 1 550 none],
   Order.mk 4 4 10 "COMPLETED" none 850 1 [OrderItem.mk 1 1 850 none]]

/-- Witness for C5: on `dbStations` only the mixed OPEN order is returned,
abbreviated to its grill item, and the theorem applies to it concretely. -/
theorem listByStation_grill_witness :
    listByStation catalog0 dbStations "grill" =
      [Order.mk 2 2 10 "OPEN" none 2250 5 [OrderItem.mk 1 2 850 none]] ∧
    ((Order.mk 2 2 10 "OPEN" none 2250 5 [OrderItem.mk 1 2 850 none]).status = "OPEN" ∧
      (Order.mk 2 2 10 "OPEN" none 2250 5 [OrderItem.mk 1 2 850 none]).items ≠ [] ∧
      ∀ it ∈ (Order.mk 2 2 10 "OPEN" none 2250 5 [OrderItem.mk 1 2 850 none]).items,
        stationOf catalog0 it = some "grill") :=
  ⟨by rfl,
   (listByStation_grill_spec catalog0 dbStations).1
     (Order.mk 2 2 10 "OPEN" none 2250 5 [OrderItem.mk 1 2 850 none]) (by decide)⟩

/-! ## C6: DELETE route registration order -/

/-- Authenticated actor attached to a request: id and role name. -/
structure Actor where
  id : Nat
  roleName : String
deriving DecidableEq

/-- An Express route pattern under `/orders`: a literal path segment or a
`:id`-style parameter segment. -/
inductive Pattern where
  | exact (s : String)
  | param
deriving DecidableEq

/-- Express path matching for one segment. -/
def matchSeg : Pattern → String → Bool
  | Pattern.exact s, seg => s == seg
  | Pattern.param, _ => true

/-- The handlers registered under the DELETE method on the orders router. -/
inductive DeleteHandler where
  | cancelLast
  | deleteById
  | kitchenClear
deriving DecidableEq

/-- The DELETE routes of the orders router in registration order: `/last`,
then `/:id`, then `/kitchen` — the `/kitchen` route is registered AFTER the
parameter route. Each entry carries its `requireRole` list. -/
def deleteRoutes : List (Pattern × List String × DeleteHandler) :=
  [(Pattern.exact "last", ["SERVER"], DeleteHandler.cancelLast),
   (Pattern.param, ["SERVER"], DeleteHandler.deleteById),
   (Pattern.exact "kitchen", ["KITCHEN_STAFF", "OWNER"], DeleteHandler.kitchenClear)]

/-- Express dispatch: the first registered route whose pattern matches. -/
def findRoute : List (Pattern × List String × DeleteHandler) → String →
    Option (List String × DeleteHandler)
  | [], _ => none
  | (p, roles, h) :: rest, seg =>
    if matchSeg p seg then some (roles, h) else findRoute rest seg

/-- Observable outcome of a DELETE request: HTTP status, broadcast event
types in emission order, and the post-state of the store. -/
structure HttpOutcome where
  code : Nat
  events : List String
  db : List Order
deriving DecidableEq

/-- Run the matched DELETE handler. `deleteById` parses the captured segment
as `parseInt(id)`; a non-numeric segment yields an id the store rejects
(HTTP 500 through the catch block). `kitchenClear` broadcasts
`kitchen:clear` and persists nothing. -/
def runDeleteHandler (db : List Order) (actor : Actor) (seg : String) :
    DeleteHandler → HttpOutcome
  | DeleteHandler.cancelLast =>
    { code := (cancelLastOrder db actor.id).1,
      events := if (cancelLastOrder db actor.id).1 == 200 then ["order:cancel"] else [],
      db := (cancelLastOrder db actor.id).2 }
  | DeleteHandler.deleteById =>
    match seg.toNat? with
    | none => { code := 500, events := [], db := db }
    | some oid =>
      { code := (deleteOrder db actor.id oid).1,
        events := if (deleteOrder db actor.id oid).1 == 200 then ["order:delete"] else [],
        db := (deleteOrder db actor.id oid).2 }
  | DeleteHandler.kitchenClear =>
    { code := 200, events := ["kitchen:clear"], db := db }

/-- A DELETE request against the orders router: dispatch in registration
order, then `requireRole`, then the matched handler. -/
def handleDelete (db : List Order) (actor : Actor) (seg : String) : HttpOutcome :=
  match findRoute deleteRoutes seg with
  | none => { code := 404, events := [], db := db }
  | some (roles, h) =>
    if roles.contains actor.roleName then runDeleteHandler db actor seg h
    else { code := 403, events := [], db := db }

/-- C6: a DELETE request to `/orders/kitchen` by a KITCHEN_STAFF or OWNER
actor is captured by the `/:id` route registered before `/kitchen`; its role
guard admits only SERVER, so the request ends with HTTP 403, no broadcast of
any kind (in particular no `kitchen:clear` signal), and an unchanged store.
The broadcast-only `/kitchen` handler is unreachable dead code. -/
theorem deleteKitchen_unreachable (db : List Order) :
    handleDelete db (Actor.mk 7 "KITCHEN_STAFF") "kitchen" =
      HttpOutcome.mk 403 [] db ∧
    handleDelete db (Actor.mk 8 "OWNER") "kitchen" = HttpOutcome.mk 403 [] db ∧
    findRoute deleteRoutes "kitchen" = some (["SERVER"], DeleteHandler.deleteById) := by
  refine ⟨rfl, rfl, rfl⟩

/-! ## C7: authentication middleware -/

/-- Result of `jwt.verify`: a decoded user id, a `JsonWebTokenError`
(invalid or expired token), or any other thrown error. -/
inductive VerifyResult where
  | ok (uid : Nat)
  | jwtError
  | otherError
deriving DecidableEq

/-- A `User` row joined with its role, as re-fetched by the middleware. -/
structure AuthUser where
  id : Nat
  username : String
  roleId : Nat
  roleName : String
  isActive : Bool
deriving DecidableEq

/-- `authenticateToken`: 401 without a bearer token; if `jwt.verify` throws,
403 for a `JsonWebTokenError` and 500 otherwise; 401 when the decoded user is
absent from the store or inactive; otherwise the user is attached and the
request proceeds. -/
def authenticateToken (token? : Option String) (verify : String → VerifyResult)
    (lookup : Nat → Option AuthUser) : Except Nat AuthUser :=
  match token? with
  | none => Except.error 401
  | some t =>
    match verify t with
    | VerifyResult.jwtError => Except.error 403
    | VerifyResult.otherError => Except.error 500
    | VerifyResult.ok uid =>
      match lookup uid with
      | none => Except.error 401
      | some u => if u.isActive then Except.ok u else Except.error 401

/-- `requireRole(allowedRoles)`: 403 when the authenticated user's role name
is not in the allowed list; `none` lets the request through. -/
def requireRole (allowed : List String) (u : AuthUser) : Option Nat :=
  if allowed.contains u.roleName then none else some 403

/-- C7 counterexample: a request carrying an invalid (or expired) bearer
token is answered with 403, not the claimed 401. -/
theorem invalid_token_yields_403 :
    authenticateToken (some "bad-token") (fun _ => VerifyResult.jwtError)
      (fun _ => none) = Except.error 403 ∧ (403 : Nat) ≠ 401 :=
  ⟨rfl, by decide⟩

/-- C7 amended: the middleware returns 401 for a missing token and for an
unknown or inactive user, 403 (not 401) when token verification fails with a
`JsonWebTokenError`, and `requireRole` returns 403 for a role outside the
allowed list. -/
theorem auth_status_codes :
    (∀ (verify : String → VerifyResult) (lookup : Nat → Option AuthUser),
       authenticateToken none verify lookup = Except.error 401) ∧
    (∀ (t : String) (verify : String → VerifyResult) (lookup : Nat → Option AuthUser),
       verify t = VerifyResult.jwtError →
       authenticateToken (some t) verify lookup = Except.error 403) ∧
    (∀ (t : String) (verify : String → VerifyResult) (lookup : Nat → Option AuthUser)
       (uid : Nat), verify t = VerifyResult.ok uid → lookup uid = none →
       authenticateToken (some t) verify lookup = Except.error 401) ∧
    (∀ (t : String) (verify : String → VerifyResult) (lookup : Nat → Option AuthUser)
       (uid : Nat) (u : AuthUser), verify t = VerifyResult.ok uid → lookup uid = some u →
       u.isActive = false → authenticateToken (some t) verify lookup = Except.error 401) ∧
    (∀ (t : String) (verify : String → VerifyResult) (lookup : Nat → Option AuthUser)
       (uid : Nat) (u : AuthUser), verify t = VerifyResult.ok uid → lookup uid = some u →
       u.isActive = true → authenticateToken (some t) verify lookup = Except.ok u) ∧
    (∀ (allowed : List String) (u : AuthUser), allowed.contains u.roleName = false →
       requireRole allowed u = some 403) := by
  refine ⟨fun _ _ => rfl, ?_, ?_, ?_, ?_, ?_⟩
  · intro t verify lookup hv
    simp [authenticateToken, hv]
  · intro t verify lookup uid hv hl
    simp [authenticateToken, hv, hl]
  · intro t verify lookup uid u hv hl hi
    simp [authenticateToken, hv, hl, hi]
  · intro t verify lookup uid u hv hl hi
    simp [authenticateToken, hv, hl, hi]
  · intro allowed u h
    unfold requireRole
    rw [h]
    rfl

/-- Witness for C7 amended, at concrete verify/lookup functions. -/
theorem auth_status_codes_witness :
    authenticateToken none (fun _ => VerifyResult.jwtError) (fun _ => none) =
      Except.error 401 ∧
    authenticateToken (some "t") (fun _ => VerifyResult.ok 5) (fun _ => none) =
      Except.error 401 ∧
    authenticateToken (some "t") (fun _ => VerifyResult.ok 5)
      (fun _ => some (AuthUser.mk 5 "bob" 2 "SERVER" false)) = Except.error 401 ∧
    authenticateToken (some "t") (fun _ => VerifyResult.ok 5)
      (fun _ => some (AuthUser.mk 5 "bob" 2 "SERVER" true)) =
      Except.ok (AuthUser.mk 5 "bob" 2 "SERVER" true) ∧
    requireRole ["SERVER"] (AuthUser.mk 5 "bob" 2 "CASHIER" true) = some 403 :=
  ⟨auth_status_codes.1 (fun _ => VerifyResult.jwtError) (fun _ => none),
   auth_status_codes.2.2.1 "t" (fun _ => VerifyResult.ok 5) (fun _ => none) 5 rfl rfl,
   auth_status_codes.2.2.2.1 "t" (fun _ => VerifyResult.ok 5)
     (fun _ => some (AuthUser.mk 5 "bob" 2 "SERVER" false)) 5
     (AuthUser.mk 5 "bob" 2 "SERVER" false) rfl rfl rfl,
   auth_status_codes.2.2.2.2.1 "t" (fun _ => VerifyResult.ok 5)
     (fun _ => some (AuthUser.mk 5 "bob" 2 "SERVER" true)) 5
     (AuthUser.mk 5 "bob" 2 "SERVER" true) rfl rfl rfl,
   auth_status_codes.2.2.2.2.2 ["SERVER"] (AuthUser.mk 5 "bob" 2 "CASHIER" true)
     (by decide)⟩

end RestaurantPOS
